import Mathlib

set_option linter.unusedVariables false

/-! Shallow embedding of the GeoDataFrame class of src/geopandas/geodataframe.py.

Tabular storage is modelled with an explicit heap of column blocks, so that the
aliasing behaviour of shallow copies and the independence of deep copies are
observable.  A GeoDataFrame holds a row index, an ordered association of column
names to heap addresses, and an optional CRS string.  Machine mutation
(assigning a cell of a column) is explicit heap update. -/

/-- Geometry values (shapely geometries, as far as the claims need them). -/
inductive Geom where
  | point (p : Int × Int)
  | multiPoint (ps : List (Int × Int))
  | lineString (ps : List (Int × Int))
  | polygon (shell : List (Int × Int))
deriving DecidableEq

/-- Cell values stored in a column. -/
inductive Value where
  | int (n : Int)
  | str (s : String)
  | geom (g : Geom)
deriving DecidableEq

/-- The geometry carried by a geometry-typed value (junk on non-geometries;
only used beneath hypotheses that rule the junk case out). -/
def asGeom : Value → Geom
  | Value.geom g => g
  | _ => Geom.point (0, 0)

def isGeomVal : Value → Bool
  | Value.geom _ => true
  | _ => false

/-- Per-geometry type name, as exposed by the geom_type attribute of the
geometry library: the class name of the geometry. -/
def geom_type : Geom → String
  | Geom.point _ => "Point"
  | Geom.multiPoint _ => "MultiPoint"
  | Geom.lineString _ => "LineString"
  | Geom.polygon _ => "Polygon"

/-- Python str() on an index label (labels are ints or strings here). -/
def strOfValue : Value → String
  | Value.int n => toString n
  | Value.str s => s
  | Value.geom _ => "geom"

abbrev Addr := Nat

abbrev Heap := List (List Value)

/-- Read the column block stored at an address. -/
def Heap.read (h : Heap) (a : Addr) : List Value := h.getD a []

/-- A GeoDataFrame: row index, ordered columns (name, block address), CRS. -/
structure GeoDataFrame where
  index : List Value
  cols : List (String × Addr)
  crs : Option String
deriving DecidableEq

def colNames (df : GeoDataFrame) : List String := df.cols.map Prod.fst

/-- Address of the first column with the given name. -/
def lookupCol (df : GeoDataFrame) (n : String) : Option Addr :=
  (df.cols.find? (fun p => p.1 == n)).map Prod.snd

/-- Values of the first column with the given name. -/
def getColumn (h : Heap) (df : GeoDataFrame) (n : String) : Option (List Value) :=
  (df.cols.find? (fun p => p.1 == n)).map (fun p => Heap.read h p.2)

/-- Column assignment, as in pandas: a fresh block is allocated for the new
values; an existing column keeps its position, a new one is appended. -/
def setColumn (h : Heap) (df : GeoDataFrame) (n : String) (vals : List Value) :
    Heap × GeoDataFrame :=
  (h ++ [vals],
   if df.cols.any (fun p => p.1 == n) then
     { df with cols := df.cols.map (fun p => if p.1 == n then (p.1, h.length) else p) }
   else
     { df with cols := df.cols ++ [(n, h.length)] })

/-- Column deletion (del frame of a name). -/
def delColumn (df : GeoDataFrame) (n : String) : GeoDataFrame :=
  { df with cols := df.cols.filter (fun p => p.1 != n) }

/-- Well-formed frame over a heap: every column address is allocated. -/
abbrev wfAddrs (h : Heap) (df : GeoDataFrame) : Prop :=
  ∀ p ∈ df.cols, p.2 < h.length

/-- Every column block has exactly one value per row. -/
abbrev wfLens (h : Heap) (df : GeoDataFrame) : Prop :=
  ∀ p ∈ df.cols, (Heap.read h p.2).length = df.index.length

/-- The backported pandas attribute propagation: copy the attributes listed in
the prop attributes registry (just the crs) from other onto self. -/
def _propogate_attributes (self other : GeoDataFrame) : GeoDataFrame :=
  { self with crs := other.crs }

/-- Copy every column block into fresh storage (the copy of the block manager
data inside GeoDataFrame.copy with deep set to true). -/
def allocCols (h : Heap) : List (String × Addr) → Heap × List (String × Addr)
  | [] => (h, [])
  | p :: rest =>
    let h₁ := h ++ [Heap.read h p.2]
    let r := allocCols h₁ rest
    (r.1, (p.1, h.length) :: r.2)

/-- GeoDataFrame.copy: rebuild a GeoDataFrame from the (possibly copied)
storage, then explicitly propagate the crs from the source, because the plain
constructor leaves the crs at None. -/
def copy (h : Heap) (self : GeoDataFrame) (deep : Bool) : Heap × GeoDataFrame :=
  if deep then
    let r := allocCols h self.cols
    (r.1, _propogate_attributes { index := self.index, cols := r.2, crs := none } self)
  else
    (h, _propogate_attributes { index := self.index, cols := self.cols, crs := none } self)

/-- Cell-level mutation of a named column through a given frame: writes one
cell of the block the frame references under that name. -/
def setCellCol (h : Heap) (df : GeoDataFrame) (n : String) (i : Nat) (v : Value) : Heap :=
  match lookupCol df n with
  | some a => h.set a ((h.getD a []).set i v)
  | none => h

/-- A pandas Series argument: it carries its own row index (and possibly a crs,
when it is a GeoSeries), but set_geometry only ever reads its values. -/
structure PSeries where
  index : List Value
  values : List Value
  crs : Option String
deriving DecidableEq

/-- The argument of set_geometry: a Series, a raw vector, or a column name. -/
inductive GeomSource where
  | series (s : PSeries)
  | vector (vs : List Value)
  | name (c : String)
deriving DecidableEq

/-- GeoDataFrame.set_geometry.  Returns the final heap, the final state of the
receiver, and the Python return value (some frame when inplace is false, none
when inplace is true); none overall when the named column is missing.
The removal of the extracted column is guarded by Python truthiness of the
stored name, so the empty string is never removed. -/
def set_geometry (h : Heap) (self : GeoDataFrame) (col : GeomSource)
    (drop : Bool) (inplace : Bool) :
    Option (Heap × GeoDataFrame × Option GeoDataFrame) :=
  let hf := if inplace then (h, self) else copy h self true
  let ext : Option (List Value × Option String) :=
    match col with
    | GeomSource.series s => some (s.values, none)
    | GeomSource.vector vs => some (vs, none)
    | GeomSource.name c =>
      match getColumn hf.1 hf.2 c with
      | some vs => some (vs, if drop then some c else none)
      | none => none
  match ext with
  | none => none
  | some (level, to_remove) =>
    let frame₁ :=
      match to_remove with
      | some c => if c == "" then hf.2 else delColumn hf.2 c
      | none => hf.2
    let hf₂ := setColumn hf.1 frame₁ "geometry" level
    some (hf₂.1, if inplace then hf₂.2 else self,
          if inplace then none else some hf₂.2)

/-- Data of a one-column indexing result (a pandas Series over the frame: it
shares the block address of the column, no data is copied). -/
structure SeriesData where
  name : String
  index : List Value
  addr : Addr
deriving DecidableEq

/-- Data of a table-shaped indexing result. -/
structure FrameData where
  index : List Value
  cols : List (String × Addr)
deriving DecidableEq

/-- The runtime class of an indexing result, as a tagged variant: the source
mutates the class attribute of the delegated result to specialize it. -/
inductive GetItemResult where
  | series (sd : SeriesData)
  | geoSeries (sd : SeriesData) (crs : Option String)
  | frame (fd : FrameData)
  | geoFrame (fd : FrameData) (crs : Option String)
deriving DecidableEq

/-- An indexing key: a single column name or a list of column names. -/
inductive Key where
  | str (s : String)
  | strs (ss : List String)
deriving DecidableEq

/-- The delegated indexed access of the underlying table: a plain Series for a
string key (sharing the column block), a plain sub-frame for a list of names
(sharing the column blocks); missing names fail. -/
def baseGetItem (df : GeoDataFrame) (key : Key) : Option GetItemResult :=
  match key with
  | Key.str s =>
    (df.cols.find? (fun p => p.1 == s)).map
      (fun p => GetItemResult.series { name := s, index := df.index, addr := p.2 })
  | Key.strs ss =>
    if ss.all (fun s => df.cols.any (fun p => p.1 == s)) then
      some (GetItemResult.frame
        { index := df.index,
          cols := ss.filterMap
            (fun s => (df.cols.find? (fun p => p.1 == s)).map (fun p => (s, p.2))) })
    else none

def keyIsGeometryStr : Key → Bool
  | Key.str s => s == "geometry"
  | Key.strs _ => false

def isFrameResult : GetItemResult → Bool
  | GetItemResult.frame _ => true
  | GetItemResult.geoFrame _ _ => true
  | _ => false

def resultHasGeometryCol : GetItemResult → Bool
  | GetItemResult.frame fd => fd.cols.any (fun p => p.1 == "geometry")
  | GetItemResult.geoFrame fd _ => fd.cols.any (fun p => p.1 == "geometry")
  | _ => false

/-- Re-typing the delegated result as a GeoSeries and attaching a crs: only the
class tag and the crs change, the underlying data is untouched. -/
def reclassGeoSeries (r : GetItemResult) (crs : Option String) : GetItemResult :=
  match r with
  | GetItemResult.series sd => GetItemResult.geoSeries sd crs
  | GetItemResult.geoSeries sd _ => GetItemResult.geoSeries sd crs
  | other => other

/-- Re-typing the delegated result as a GeoDataFrame and attaching a crs. -/
def reclassGeoFrame (r : GetItemResult) (crs : Option String) : GetItemResult :=
  match r with
  | GetItemResult.frame fd => GetItemResult.geoFrame fd crs
  | GetItemResult.geoFrame fd _ => GetItemResult.geoFrame fd crs
  | other => other

/-- Forget the class tag and any attached crs of an indexing result: what is
left is exactly the underlying data, so equality under stripClass states that
no data was duplicated or copied. -/
def stripClass : GetItemResult → GetItemResult
  | GetItemResult.geoSeries sd _ => GetItemResult.series sd
  | GetItemResult.geoFrame fd _ => GetItemResult.frame fd
  | other => other

/-- The overridden indexed access of GeoDataFrame: delegate, then re-classify
the result depending on the key and on the presence of a geometry column. -/
def getItem (df : GeoDataFrame) (key : Key) : Option GetItemResult :=
  (baseGetItem df key).map (fun result =>
    if keyIsGeometryStr key then reclassGeoSeries result df.crs
    else if isFrameResult result && resultHasGeometryCol result then
      reclassGeoFrame result df.crs
    else result)

/-- The geometry property: indexed access with the literal geometry name. -/
def geometry (df : GeoDataFrame) : Option GetItemResult :=
  getItem df (Key.str "geometry")

/-- The values observed by reading the geometry property. -/
def geometryValues (h : Heap) (df : GeoDataFrame) : Option (List Value) :=
  match geometry df with
  | some (GetItemResult.geoSeries sd _) => some (Heap.read h sd.addr)
  | _ => none

/-- Pointwise coordinate transformation of a geometry: every vertex is mapped
independently, segments are never reinterpreted. -/
def transformGeom (t : Int × Int → Int × Int) : Geom → Geom
  | Geom.point p => Geom.point (t p)
  | Geom.multiPoint ps => Geom.multiPoint (ps.map t)
  | Geom.lineString ps => Geom.lineString (ps.map t)
  | Geom.polygon shell => Geom.polygon (shell.map t)

def transformValue (t : Int × Int → Int × Int) : Value → Value
  | Value.geom g => Value.geom (transformGeom t g)
  | v => v

/-- Modelled from the spec: GeoSeries.to_crs is code of this repository that is
not under src (only geodataframe.py is).  Per the spec it reprojects every
geometry value pointwise, independently per vertex, and the resulting series
carries the target crs.  The projection math itself is delegated, so it enters
as the transformation parameter t. -/
def series_to_crs (t : Int × Int → Int × Int) (target : Option String)
    (vals : List Value) : List Value × Option String :=
  (vals.map (transformValue t), target)

/-- GeoDataFrame.to_crs: work on self (inplace) or on a deep copy, reproject
the geometry column, write it back as the geometry column, set the crs of the
frame to the crs of the reprojected series, and return the frame only when
inplace is false.  Result as in set_geometry: final heap, final receiver
state, Python return value. -/
def to_crs (t : Int × Int → Int × Int) (h : Heap) (self : GeoDataFrame)
    (target : Option String) (inplace : Bool) :
    Option (Heap × GeoDataFrame × Option GeoDataFrame) :=
  let hd := if inplace then (h, self) else copy h self true
  match getColumn hd.1 hd.2 "geometry" with
  | none => none
  | some vals =>
    let geom := series_to_crs t target vals
    let hd₂ := setColumn hd.1 hd.2 "geometry" geom.1
    let df₂ := { hd₂.2 with crs := geom.2 }
    some (hd₂.1, if inplace then df₂ else self,
          if inplace then none else some df₂)

/-- Coordinates of the standard geometry-interchange form. -/
inductive Coords where
  | pt (p : Int × Int)
  | pts (ps : List (Int × Int))
  | rings (rs : List (List (Int × Int)))
deriving DecidableEq

/-- A geometry in standard interchange form (the result of shapely mapping). -/
structure GeoInterchange where
  type : String
  coordinates : Coords
deriving DecidableEq

/-- The shapely mapping function: geometry to interchange form. -/
def mapping : Geom → GeoInterchange
  | Geom.point p => { type := "Point", coordinates := Coords.pt p }
  | Geom.multiPoint ps => { type := "MultiPoint", coordinates := Coords.pts ps }
  | Geom.lineString ps => { type := "LineString", coordinates := Coords.pts ps }
  | Geom.polygon shell => { type := "Polygon", coordinates := Coords.rings [shell] }

/-- A Feature record as built by the nested feature helpers of to_json and
to_file. -/
structure Feature where
  id : String
  type : String
  properties : List (String × Value)
  geometry : GeoInterchange
deriving DecidableEq

def lookupRow (row : List (String × Value)) (n : String) : Option Value :=
  (row.find? (fun p => p.1 == n)).map Prod.snd

/-- The row at position k, as the ordered column-name-to-value mapping that
iterrows yields. -/
def rowAt (h : Heap) (df : GeoDataFrame) (k : Nat) : List (String × Value) :=
  df.cols.map (fun p => (p.1, (Heap.read h p.2).getD k (Value.int 0)))

/-- iterrows: (index label, row mapping) in row order. -/
def iterrows (h : Heap) (df : GeoDataFrame) : List (Value × List (String × Value)) :=
  (List.range df.index.length).map
    (fun k => (df.index.getD k (Value.int 0), rowAt h df k))

/-- The feature helper shared by to_json and to_file: id is the stringified
index label, properties are all non-geometry columns of the row, geometry is
the interchange form of the geometry cell.  It fails (as the source would, by
raising) when the geometry cell of the row is not a geometry. -/
def feature (i : Value) (row : List (String × Value)) : Option Feature :=
  match lookupRow row "geometry" with
  | some (Value.geom g) =>
    some { id := strOfValue i, type := "Feature",
           properties := row.filter (fun p => p.1 != "geometry"),
           geometry := mapping g }
  | _ => none

def collectFeatures : List (Value × List (String × Value)) → Option (List Feature)
  | [] => some []
  | r :: rest =>
    match feature r.1 r.2, collectFeatures rest with
    | some f, some fs => some (f :: fs)
    | _, _ => none

/-- The FeatureCollection envelope produced by to_json (before the delegated
json.dumps textual serialization). -/
structure FeatureCollection where
  type : String
  features : List Feature
deriving DecidableEq

/-- GeoDataFrame.to_json: one Feature per row, in row order, wrapped into the
FeatureCollection envelope. -/
def to_json (h : Heap) (df : GeoDataFrame) : Option FeatureCollection :=
  (collectFeatures (iterrows h df)).map
    (fun fs => { type := "FeatureCollection", features := fs })

/-- The schema handed to the file resource: a single geometry type name and a
field-type name per non-geometry column. -/
structure Schema where
  geometry : String
  properties : List (String × String)
deriving DecidableEq

/-- Observable interactions of to_file with the external file resource. -/
inductive FileEvent where
  | opened (schema : Schema) (crs : Option String)
  | wrote (f : Feature)
  | closed
deriving DecidableEq

/-- Result of to_file: the trace of resource events and the error that
propagates to the caller, if any. -/
structure FileResult where
  events : List FileEvent
  error : Option String
deriving DecidableEq

/-- Storage dtype of a column, as pandas infers it from the values: an all-int
column is numeric, anything else is a generic object column. -/
def dtypeOf (vals : List Value) : String :=
  if vals.all (fun v => match v with | Value.int _ => true | _ => false) then "int64"
  else "object"

/-- The convert_type helper of to_file: an untyped object column maps to the
generic string type, a numeric dtype maps to its scalar type name. -/
def convert_type (t : String) : String :=
  if t == "object" then "str" else "int"

/-- First-occurrence-order distinct values, as Series.unique yields them. -/
def unique : List String → List String
  | [] => []
  | x :: xs => x :: (unique xs).filter (fun y => y != x)

/-- Longest common start of two character lists. -/
def commonPrefix2 : List Char → List Char → List Char
  | a :: as, b :: bs => if a = b then a :: commonPrefix2 as bs else []
  | _, _ => []

/-- The os.path commonprefix helper: longest common start of the strings,
empty on an empty list. -/
def commonPrefixAll : List String → String
  | [] => ""
  | s :: rest => { data := rest.foldl (fun acc t => commonPrefix2 acc t.data) s.data }

def reverseStr (s : String) : String := { data := s.data.reverse }

/-- The geometry type written into the schema: reverse every distinct type
name, take the longest common start, reverse back, which is the longest common
suffix of the distinct type names. -/
def inferGeomType (types : List String) : String :=
  reverseStr (commonPrefixAll (types.map reverseStr))

/-- The exact message of the ValueError raised by to_file on
suffix-incompatible geometry types (the typos are in the source). -/
def errMsgMultiGeom : String :=
  "Geometry column cannot contains mutiple geometry types when writing to file."

/-- Schema field types of the non-geometry columns, as to_file derives them. -/
def schemaProps (h : Heap) (df : GeoDataFrame) : List (String × String) :=
  (df.cols.filter (fun p => p.1 != "geometry")).map
    (fun p => (p.1, convert_type (dtypeOf (Heap.read h p.2))))

/-- The distinct per-row geometry type names of a geometry column, in order of
first appearance (the unique call of to_file). -/
def distinctGeomTypes (gvals : List Value) : List String :=
  unique (gvals.map (fun v => geom_type (asGeom v)))

/-- The per-row features that the write loop of to_file attempts, in row
order. -/
def rowFeaturesOf (h : Heap) (df : GeoDataFrame) : List (Option Feature) :=
  (iterrows h df).map (fun r => feature r.1 r.2)

/-- The write loop inside the with-block: write features in order, stop at the
first failure; the resulting error propagates.  A none feature is a row whose
geometry cell is not a geometry (the source would raise while building the
feature). -/
def writeLoop (write : Feature → Except String Unit) :
    List (Option Feature) → List FileEvent × Option String
  | [] => ([], none)
  | none :: _ => ([], some "TypeError: geometry value is not a geometry")
  | some f :: rest =>
    match write f with
    | Except.error e => ([], some e)
    | Except.ok _ =>
      let r := writeLoop write rest
      (FileEvent.wrote f :: r.1, r.2)

/-- GeoDataFrame.to_file: derive the field schema, determine the single
geometry type from the distinct per-row geometry type names (longest common
suffix), fail fast with a ValueError when there is none, otherwise open the
resource with the schema and the crs of the frame, run the write loop, and
close the resource on every exit path (the with-statement).  The write
behaviour of the external resource enters as the parameter write. -/
def to_file (write : Feature → Except String Unit) (h : Heap) (df : GeoDataFrame) :
    FileResult :=
  match getColumn h df "geometry" with
  | none => { events := [], error := some "KeyError: geometry" }
  | some gvals =>
    if gvals.all isGeomVal then
      let geom_types := distinctGeomTypes gvals
      let gt := inferGeomType geom_types
      if gt == "" then { events := [], error := some errMsgMultiGeom }
      else
        let schema : Schema := { geometry := gt, properties := schemaProps h df }
        let r := writeLoop write (rowFeaturesOf h df)
        { events := FileEvent.opened schema df.crs :: (r.1 ++ [FileEvent.closed]),
          error := r.2 }
    else { events := [], error := some "TypeError: geometry column contains non-geometry values" }

/-- Conclusion of claim C1: reading the geometry column yields a GeoSeries
sharing the column block and carrying the crs of the frame; a sub-frame that
still holds a geometry column is re-classified as a geo frame with the crs;
everything else is returned unchanged; re-classification never copies data. -/
def C1Prop (h : Heap) (df : GeoDataFrame) : Prop :=
  (∃ a, lookupCol df "geometry" = some a ∧
    getItem df (Key.str "geometry") =
      some (GetItemResult.geoSeries
        { name := "geometry", index := df.index, addr := a } df.crs) ∧
    getColumn h df "geometry" = some (Heap.read h a)) ∧
  (∀ ss r, getItem df (Key.strs ss) = some r → resultHasGeometryCol r = true →
    ∃ fd, r = GetItemResult.geoFrame fd df.crs) ∧
  (∀ key r, baseGetItem df key = some r → keyIsGeometryStr key = false →
    (isFrameResult r && resultHasGeometryCol r) = false → getItem df key = some r) ∧
  (∀ key, (getItem df key).map stripClass = (baseGetItem df key).map stripClass)

/-- Conclusion of the amended claim C2 for a truthy (non-empty) column name:
set_geometry with drop on an existing column installs its values as the
geometry column of an independent copy, removes the name (unless the name is
the geometry name itself), and leaves the receiver untouched. -/
def C2Prop (h : Heap) (df : GeoDataFrame) (c : String) : Prop :=
  ∃ h₂ out,
    set_geometry h df (GeomSource.name c) true false = some (h₂, df, some out) ∧
    geometryValues h₂ out = getColumn h df c ∧
    (c ≠ "geometry" → c ∉ colNames out) ∧
    (∀ n, getColumn h₂ df n = getColumn h df n) ∧
    (∀ p ∈ out.cols, ∀ q ∈ df.cols, p.2 ≠ q.2)

/-- Conclusion of claim C3: to_crs replaces the geometry column with the
pointwise reprojected values and sets the crs of the frame to the target; with
inplace false this happens on an independent copy and the receiver is
untouched, with inplace true on the receiver itself and nothing is returned. -/
def C3Prop (t : Int × Int → Int × Int) (h : Heap) (df : GeoDataFrame)
    (target : Option String) : Prop :=
  (∃ h₂ out, to_crs t h df target false = some (h₂, df, some out) ∧
    out.crs = target ∧
    getColumn h₂ out "geometry" =
      (getColumn h df "geometry").map (List.map (transformValue t)) ∧
    colNames out = colNames df ∧
    (∀ n, getColumn h₂ df n = getColumn h df n)) ∧
  (∃ h₂ slf, to_crs t h df target true = some (h₂, slf, none) ∧
    slf.crs = target ∧ slf.index = df.index ∧ colNames slf = colNames df ∧
    getColumn h₂ slf "geometry" =
      (getColumn h df "geometry").map (List.map (transformValue t)))

/-- Conclusion of claim C4: a deep copy carries the crs and independent
storage (mutating the geometry column of the copy leaves the source column as
it was), a shallow copy carries the crs and aliases storage (a cell mutation
through the copy is visible through both). -/
def C4Prop (h : Heap) (df : GeoDataFrame) (a : Addr) (i : Nat) (v : Value) : Prop :=
  ((copy h df true).2.crs = df.crs ∧
   colNames (copy h df true).2 = colNames df ∧
   (∀ n, getColumn (copy h df true).1 (copy h df true).2 n = getColumn h df n) ∧
   getColumn (setCellCol (copy h df true).1 (copy h df true).2 "geometry" i v) df "geometry"
     = getColumn h df "geometry" ∧
   getColumn (setCellCol (copy h df true).1 (copy h df true).2 "geometry" i v)
       (copy h df true).2 "geometry" = some ((Heap.read h a).set i v)) ∧
  ((copy h df false).2.crs = df.crs ∧
   (copy h df false).1 = h ∧
   getColumn (setCellCol h (copy h df false).2 "geometry" i v) df "geometry"
     = some ((Heap.read h a).set i v) ∧
   getColumn (setCellCol h (copy h df false).2 "geometry" i v) (copy h df false).2 "geometry"
     = some ((Heap.read h a).set i v))

/-- Conclusion of claim C5 over the values of the geometry column: the schema
geometry type is the longest common suffix of the distinct per-row type names
(the single name when there is exactly one), and to_file fails exactly when no
non-empty shared suffix exists. -/
def C5Prop (h : Heap) (df : GeoDataFrame) (gvals : List Value) : Prop :=
  (∀ t, distinctGeomTypes gvals = [t] → inferGeomType (distinctGeomTypes gvals) = t) ∧
  (∀ t ∈ distinctGeomTypes gvals, (inferGeomType (distinctGeomTypes gvals)).data <:+ t.data) ∧
  (∀ s : String, (∀ t ∈ distinctGeomTypes gvals, s.data <:+ t.data) →
     s.length ≤ (inferGeomType (distinctGeomTypes gvals)).length) ∧
  (inferGeomType (distinctGeomTypes gvals) ≠ "" → ∀ w, ∃ evs,
     (to_file w h df).events = FileEvent.opened
       { geometry := inferGeomType (distinctGeomTypes gvals), properties := schemaProps h df }
       df.crs :: evs) ∧
  (inferGeomType (distinctGeomTypes gvals) = "" → ∀ w,
     to_file w h df = { events := [], error := some errMsgMultiGeom })

/-- Conclusion of claim C6: with suffix-incompatible geometry types, to_file
returns exactly the ValueError with the source message and an empty resource
trace (nothing opened, nothing written); with a single distinct geometry type
the schema check passes and the resource is opened with that type. -/
def C6Prop (w : Feature → Except String Unit) (h : Heap) (df : GeoDataFrame)
    (gvals : List Value) : Prop :=
  ((∀ s : String, (∀ t ∈ distinctGeomTypes gvals, s.data <:+ t.data) → s = "") →
     to_file w h df = { events := [], error := some errMsgMultiGeom }) ∧
  (∀ t, distinctGeomTypes gvals = [t] →
     ∃ evs, (to_file w h df).events =
       FileEvent.opened { geometry := t, properties := schemaProps h df } df.crs :: evs)

/-- Conclusion of claim C7: to_json yields the FeatureCollection envelope with
one Feature per row in row order, whose id is the stringified index label,
whose properties are the non-geometry columns of the row, and whose geometry
is the interchange form of the geometry cell. -/
def C7Prop (h : Heap) (df : GeoDataFrame) (ga : Addr) : Prop :=
  to_json h df = some
    { type := "FeatureCollection",
      features := (List.range df.index.length).map (fun k =>
        { id := strOfValue (df.index.getD k (Value.int 0)),
          type := "Feature",
          properties := (df.cols.filter (fun p => p.1 != "geometry")).map
            (fun p => (p.1, (Heap.read h p.2).getD k (Value.int 0))),
          geometry := mapping (asGeom ((Heap.read h ga).getD k (Value.int 0))) }) }

/-- Conclusion of claim C8: either to_file fails before acquiring the resource
(empty trace, an error), or the trace is exactly one open, the successful
writes in row order without retry (a prefix of the row features), and a final
close on every exit path; the write-loop error propagates to the caller. -/
def C8Prop (w : Feature → Except String Unit) (h : Heap) (df : GeoDataFrame) : Prop :=
  ((to_file w h df).events = [] ∧ (to_file w h df).error.isSome = true) ∨
  (∃ sch : Schema, ∃ ws : List Feature,
    (to_file w h df).events =
      FileEvent.opened sch df.crs :: (ws.map FileEvent.wrote ++ [FileEvent.closed]) ∧
    ws.map Option.some <+: rowFeaturesOf h df ∧
    (to_file w h df).error = (writeLoop w (rowFeaturesOf h df)).2)

/-- Conclusion of claim C9: with the falsy column name (the empty string),
set_geometry installs the values but the column is not removed; with a truthy
name the original column binding is removed (the name itself disappears unless
it is the geometry name, whose binding is still replaced by fresh storage). -/
def C9Prop (h : Heap) (df : GeoDataFrame) (c : String) (a₁ : Addr) : Prop :=
  (∀ inplace, ∃ h₂ out,
     set_geometry h df (GeomSource.name "") true inplace =
       some (h₂, (if inplace then out else df), (if inplace then none else some out)) ∧
     "" ∈ colNames out ∧
     geometryValues h₂ out = getColumn h df "") ∧
  (∃ h₂ out, set_geometry h df (GeomSource.name c) true true = some (h₂, out, none) ∧
     (∀ p ∈ out.cols, p ≠ (c, a₁)) ∧
     (c ≠ "geometry" → c ∉ colNames out))

/-- Conclusion of claim C10: a Series source contributes only its values; its
own row index (and any crs) is discarded and the values are installed as the
geometry column positionally. -/
def C10Prop (h : Heap) (df : GeoDataFrame) (vals : List Value)
    (drop inplace : Bool) : Prop :=
  (∀ idx₁ idx₂ crs₁ crs₂,
     set_geometry h df (GeomSource.series { index := idx₁, values := vals, crs := crs₁ })
       drop inplace =
     set_geometry h df (GeomSource.series { index := idx₂, values := vals, crs := crs₂ })
       drop inplace) ∧
  (∀ s : PSeries, s.values = vals → ∃ h₂ out,
     set_geometry h df (GeomSource.series s) drop inplace =
       some (h₂, (if inplace then out else df), (if inplace then none else some out)) ∧
     getColumn h₂ out "geometry" = some vals)

/-- A concrete heap for the evaluation witnesses. -/
def exHeap : Heap :=
  [[Value.str "a", Value.str "b"],
   [Value.geom (Geom.point (0, 0)), Value.geom (Geom.point (1, 1))],
   [Value.int 10, Value.int 20]]

/-- A concrete two-row frame with a name column, a geometry column of points
and a numeric column. -/
def exDf : GeoDataFrame :=
  { index := [Value.int 0, Value.int 1],
    cols := [("name", 0), ("geometry", 1), ("score", 2)],
    crs := some "epsg:4326" }

/-- A concrete heap for the falsy-column-name witnesses. -/
def exHeapE : Heap := [[Value.int 7], [Value.int 8], [Value.geom (Geom.point (2, 3))]]

/-- A concrete frame with a column whose name is the empty string. -/
def exDfE : GeoDataFrame :=
  { index := [Value.int 0], cols := [("", 0), ("a", 1), ("geometry", 2)], crs := none }

/-- A concrete heap with suffix-incompatible geometry types. -/
def exHeapM : Heap :=
  [[Value.geom (Geom.point (0, 0)), Value.geom (Geom.polygon [(0, 0), (1, 0), (1, 1)])]]

/-- A concrete frame whose geometry column mixes Point and Polygon. -/
def exDfM : GeoDataFrame :=
  { index := [Value.int 0, Value.int 1], cols := [("geometry", 0)], crs := none }

theorem getD_append_lt (l₁ l₂ : List (List Value)) (a : Nat) (ha : a < l₁.length) :
    (l₁ ++ l₂).getD a [] = l₁.getD a [] := by
  induction l₁ generalizing a with
  | nil => simp at ha
  | cons x xs ih =>
    cases a with
    | zero => rfl
    | succ a => exact ih a (Nat.lt_of_succ_lt_succ ha)

theorem getD_append_len (l₁ : List (List Value)) (b : List Value) (l₂ : List (List Value)) :
    (l₁ ++ b :: l₂).getD l₁.length [] = b := by
  induction l₁ with
  | nil => rfl
  | cons x xs ih => exact ih

theorem getD_set_ne (l : List (List Value)) (a a' : Nat) (b : List Value) (h : a ≠ a') :
    (l.set a b).getD a' [] = l.getD a' [] := by
  induction l generalizing a a' with
  | nil => rfl
  | cons x xs ih =>
    cases a with
    | zero =>
      cases a' with
      | zero => exact absurd rfl h
      | succ a' => rfl
    | succ a =>
      cases a' with
      | zero => rfl
      | succ a' => exact ih a a' (fun e => h (congrArg Nat.succ e))

theorem getD_set_self (l : List (List Value)) (a : Nat) (b : List Value) (ha : a < l.length) :
    (l.set a b).getD a [] = b := by
  induction l generalizing a with
  | nil => simp at ha
  | cons x xs ih =>
    cases a with
    | zero => rfl
    | succ a => exact ih a (Nat.lt_of_succ_lt_succ ha)

theorem read_append_lt (h ext : Heap) (a : Addr) (ha : a < h.length) :
    Heap.read (h ++ ext) a = Heap.read h a :=
  getD_append_lt h ext a ha

theorem find?_name_of_mem (cols : List (String × Addr)) (n : String)
    (hn : n ∈ cols.map Prod.fst) :
    ∃ p, cols.find? (fun q => q.1 == n) = some p ∧ p.1 = n := by
  induction cols with
  | nil => simp at hn
  | cons q rest ih =>
    by_cases hq : q.1 = n
    · exact ⟨q, by simp [List.find?, hq], hq⟩
    · have : n ∈ rest.map Prod.fst := by
        simp at hn
        rcases hn with h | h
        · exact absurd h.symm hq
        · simpa using h
      rcases ih this with ⟨p, hp, hpn⟩
      refine ⟨p, ?_, hpn⟩
      simpa [List.find?, show (q.1 == n) = false by simp [hq]] using hp

theorem find?_name_mem (cols : List (String × Addr)) (n : String) (p : String × Addr)
    (h : cols.find? (fun q => q.1 == n) = some p) : p ∈ cols ∧ p.1 = n := by
  induction cols with
  | nil => simp [List.find?] at h
  | cons q rest ih =>
    by_cases hq : q.1 = n
    · simp [List.find?, hq] at h
      exact ⟨by simp [h], by rw [← h]; exact hq⟩
    · simp [List.find?, show (q.1 == n) = false by simp [hq]] at h
      rcases ih h with ⟨h₁, h₂⟩
      exact ⟨List.mem_cons_of_mem _ h₁, h₂⟩

theorem find?_name_eq_none (cols : List (String × Addr)) (n : String)
    (hn : n ∉ cols.map Prod.fst) :
    cols.find? (fun q => q.1 == n) = none := by
  induction cols with
  | nil => rfl
  | cons q rest ih =>
    have h1 : ¬(n = q.1 ∨ n ∈ rest.map Prod.fst) := by simpa using hn
    have hq : q.1 ≠ n := fun e => h1 (Or.inl e.symm)
    simp [List.find?, show (q.1 == n) = false by simp [hq],
      ih (fun m => h1 (Or.inr m))]

theorem getColumn_of_lookup (h : Heap) (df : GeoDataFrame) (n : String) (a : Addr)
    (ha : lookupCol df n = some a) : getColumn h df n = some (Heap.read h a) := by
  unfold lookupCol at ha
  unfold getColumn
  cases hf : df.cols.find? (fun q => q.1 == n) with
  | none => rw [hf] at ha; simp at ha
  | some p =>
    rw [hf] at ha
    simp at ha
    simp [hf, ha]

theorem lookup_mem_addr (df : GeoDataFrame) (n : String) (a : Addr)
    (ha : lookupCol df n = some a) : ∃ p ∈ df.cols, p.1 = n ∧ p.2 = a := by
  unfold lookupCol at ha
  cases hf : df.cols.find? (fun q => q.1 == n) with
  | none => rw [hf] at ha; simp at ha
  | some p =>
    rw [hf] at ha
    simp at ha
    rcases find?_name_mem df.cols n p hf with ⟨hm, hn⟩
    exact ⟨p, hm, hn, ha⟩

theorem lookupCol_of_mem (df : GeoDataFrame) (n : String) (hn : n ∈ colNames df) :
    ∃ a, lookupCol df n = some a := by
  rcases find?_name_of_mem df.cols n hn with ⟨p, hp, _⟩
  exact ⟨p.2, by simp [lookupCol, hp]⟩

theorem getColumn_congr (h₁ h₂ : Heap) (df : GeoDataFrame) (n : String)
    (hr : ∀ p ∈ df.cols, Heap.read h₁ p.2 = Heap.read h₂ p.2) :
    getColumn h₁ df n = getColumn h₂ df n := by
  unfold getColumn
  cases hf : df.cols.find? (fun q => q.1 == n) with
  | none => rfl
  | some p =>
    rcases find?_name_mem df.cols n p hf with ⟨hm, _⟩
    simp [hr p hm]

theorem getColumn_extend (h ext : Heap) (df : GeoDataFrame) (n : String)
    (wf : wfAddrs h df) : getColumn (h ++ ext) df n = getColumn h df n :=
  getColumn_congr _ _ df n (fun p hp => read_append_lt h ext p.2 (wf p hp))

theorem setColumn_fst (h : Heap) (df : GeoDataFrame) (n : String) (vals : List Value) :
    (setColumn h df n vals).1 = h ++ [vals] := rfl

theorem find?_append_none {p : String × Addr → Bool} (l₁ l₂ : List (String × Addr))
    (h : l₁.find? p = none) : (l₁ ++ l₂).find? p = l₂.find? p := by
  induction l₁ with
  | nil => rfl
  | cons q rest ih =>
    cases hq : p q with
    | true => rw [List.find?_cons_of_pos _ hq] at h; cases h
    | false =>
      have hq2 : ¬ p q = true := by simp [hq]
      rw [List.find?_cons_of_neg _ hq2] at h
      rw [List.cons_append, List.find?_cons_of_neg _ hq2]
      exact ih h

theorem find?_remap_self (cols : List (String × Addr)) (n : String) (L : Addr)
    (hany : cols.any (fun p => p.1 == n) = true) :
    (cols.map (fun p => if p.1 == n then (p.1, L) else p)).find? (fun p => p.1 == n)
      = some (n, L) := by
  induction cols with
  | nil => simp at hany
  | cons q rest ih =>
    by_cases hq : q.1 = n
    · simp [List.find?, hq]
    · have hb : (q.1 == n) = false := by simp [hq]
      simp only [List.map, List.find?, hb, if_false]
      simp only [List.any, hb, Bool.false_or] at hany
      simpa [List.find?, hb] using ih hany

theorem any_name_of_mem (cols : List (String × Addr)) (n : String)
    (hm : n ∈ cols.map Prod.fst) : cols.any (fun p => p.1 == n) = true := by
  rcases find?_name_of_mem cols n hm with ⟨p, hp, hpn⟩
  exact List.any_eq_true.mpr ⟨p, (find?_name_mem cols n p hp).1, by simp [hpn]⟩

theorem not_mem_of_any_false (cols : List (String × Addr)) (n : String)
    (hany : cols.any (fun p => p.1 == n) = false) : n ∉ cols.map Prod.fst := by
  intro hm
  rw [any_name_of_mem cols n hm] at hany
  cases hany

theorem setColumn_get_self (h : Heap) (df : GeoDataFrame) (n : String) (vals : List Value) :
    getColumn (setColumn h df n vals).1 (setColumn h df n vals).2 n = some vals := by
  cases hany : df.cols.any (fun p => p.1 == n) with
  | true =>
    simp only [setColumn, getColumn, hany, if_true]
    rw [find?_remap_self df.cols n h.length hany]
    simp [Heap.read, getD_append_len h vals []]
  | false =>
    have hnone : df.cols.find? (fun p => p.1 == n) = none :=
      find?_name_eq_none df.cols n (not_mem_of_any_false df.cols n hany)
    simp only [setColumn, getColumn, hany, Bool.false_eq_true, if_false]
    rw [find?_append_none _ _ hnone]
    simp [List.find?, Heap.read, getD_append_len h vals []]

theorem setColumn_colNames_mem (h : Heap) (df : GeoDataFrame) (n : String) (vals : List Value)
    (m : String) :
    m ∈ colNames (setColumn h df n vals).2 ↔ m ∈ colNames df ∨ m = n := by
  cases hany : df.cols.any (fun p => p.1 == n) with
  | true =>
    simp only [setColumn, colNames, hany, if_true]
    constructor
    · intro hm
      rcases List.mem_map.mp hm with ⟨p, hp, hfst⟩
      rcases List.mem_map.mp hp with ⟨q, hq, hmap⟩
      by_cases hqn : q.1 = n
      · subst hmap; left; exact List.mem_map.mpr ⟨q, hq, by simp [hqn] at hfst ⊢; simp [← hfst, hqn]⟩
      · subst hmap; left
        exact List.mem_map.mpr ⟨q, hq, by simpa [hqn] using hfst⟩
    · intro hm
      rcases hm with hm | hm
      · rcases List.mem_map.mp hm with ⟨q, hq, hfst⟩
        by_cases hqn : q.1 = n
        · exact List.mem_map.mpr ⟨(q.1, h.length), List.mem_map.mpr ⟨q, hq, by simp [hqn]⟩, hfst⟩
        · exact List.mem_map.mpr ⟨q, List.mem_map.mpr ⟨q, hq, by simp [hqn]⟩, hfst⟩
      · subst hm
        rcases find?_name_of_mem df.cols m (by
          rcases List.any_eq_true.mp hany with ⟨p, hp, hpn⟩
          simp at hpn
          exact List.mem_map.mpr ⟨p, hp, hpn⟩) with ⟨p, hp, hpn⟩
        have hpm := (find?_name_mem df.cols m p hp).1
        exact List.mem_map.mpr ⟨(p.1, h.length), List.mem_map.mpr ⟨p, hpm, by simp [hpn]⟩, hpn⟩
  | false =>
    simp only [setColumn, colNames, hany, Bool.false_eq_true, if_false]
    simp [List.map_append]

theorem setColumn_colNames_of_mem (h : Heap) (df : GeoDataFrame) (n : String) (vals : List Value)
    (hn : n ∈ colNames df) : colNames (setColumn h df n vals).2 = colNames df := by
  have hany : df.cols.any (fun p => p.1 == n) = true := any_name_of_mem df.cols n hn
  simp only [setColumn, colNames, hany, if_true, List.map_map]
  apply List.map_congr_left
  intro q hq
  by_cases hqn : q.1 = n <;> simp [hqn]

theorem setColumn_mem_cases (h : Heap) (df : GeoDataFrame) (n : String) (vals : List Value)
    (p : String × Addr) (hp : p ∈ (setColumn h df n vals).2.cols) :
    (p ∈ df.cols ∧ p.1 ≠ n) ∨ (p.1 = n ∧ p.2 = h.length) := by
  cases hany : df.cols.any (fun q => q.1 == n) with
  | true =>
    simp only [setColumn, hany, if_true] at hp
    rcases List.mem_map.mp hp with ⟨q, hq, hmap⟩
    by_cases hqn : q.1 = n
    · right
      constructor
      · rw [← hmap]; simp [hqn]
      · rw [← hmap]; simp [hqn]
    · left
      constructor
      · rw [← hmap]; simp [hqn, hq]
      · rw [← hmap]; simp [hqn]
  | false =>
    simp only [setColumn, hany, Bool.false_eq_true, if_false] at hp
    rcases List.mem_append.mp hp with hm | hm
    · left
      refine ⟨hm, ?_⟩
      intro e
      exact not_mem_of_any_false df.cols n hany (List.mem_map.mpr ⟨p, hm, e⟩)
    · right
      simp at hm
      simp [hm]

theorem delColumn_mem (df : GeoDataFrame) (n : String) (p : String × Addr)
    (hp : p ∈ (delColumn df n).cols) : p ∈ df.cols ∧ p.1 ≠ n := by
  simp only [delColumn, List.mem_filter] at hp
  refine ⟨hp.1, ?_⟩
  have := hp.2
  simpa using this

theorem delColumn_not_mem_names (df : GeoDataFrame) (n : String) :
    n ∉ colNames (delColumn df n) := by
  intro hm
  rcases List.mem_map.mp hm with ⟨p, hp, hfst⟩
  exact (delColumn_mem df n p hp).2 hfst

theorem delColumn_mem_names (df : GeoDataFrame) (n m : String)
    (hm : m ∈ colNames df) (hne : m ≠ n) : m ∈ colNames (delColumn df n) := by
  rcases List.mem_map.mp hm with ⟨p, hp, hfst⟩
  refine List.mem_map.mpr ⟨p, ?_, hfst⟩
  simp only [delColumn, List.mem_filter]
  exact ⟨hp, by simp [hfst, hne]⟩

theorem find?_none_not_mem (cols : List (String × Addr)) (n : String)
    (hf : cols.find? (fun q => q.1 == n) = none) : n ∉ cols.map Prod.fst := by
  intro hm
  rcases find?_name_of_mem cols n hm with ⟨p, hp, _⟩
  rw [hf] at hp
  cases hp

theorem allocCols_read_lt (cols : List (String × Addr)) (h : Heap) (a : Addr)
    (ha : a < h.length) : Heap.read (allocCols h cols).1 a = Heap.read h a := by
  induction cols generalizing h with
  | nil => rfl
  | cons p rest ih =>
    simp only [allocCols]
    rw [ih (h ++ [Heap.read h p.2]) (Nat.lt_of_lt_of_le ha (by simp))]
    exact read_append_lt h _ a ha

theorem allocCols_len_le (cols : List (String × Addr)) (h : Heap) :
    h.length ≤ (allocCols h cols).1.length := by
  induction cols generalizing h with
  | nil => exact Nat.le_refl _
  | cons p rest ih =>
    simp only [allocCols]
    calc h.length ≤ (h ++ [Heap.read h p.2]).length := by simp
    _ ≤ _ := ih (h ++ [Heap.read h p.2])

theorem allocCols_fresh (cols : List (String × Addr)) (h : Heap) :
    ∀ q ∈ (allocCols h cols).2, h.length ≤ q.2 ∧ q.2 < (allocCols h cols).1.length := by
  induction cols generalizing h with
  | nil => intro q hq; cases hq
  | cons p rest ih =>
    intro q hq
    simp only [allocCols] at hq ⊢
    rcases List.mem_cons.mp hq with he | hm
    · subst he
      refine ⟨Nat.le_refl _, ?_⟩
      calc h.length < (h ++ [Heap.read h p.2]).length := by simp
      _ ≤ _ := allocCols_len_le rest _
    · rcases ih (h ++ [Heap.read h p.2]) q hm with ⟨h₁, h₂⟩
      exact ⟨Nat.le_trans (by simp) h₁, h₂⟩

theorem allocCols_names (cols : List (String × Addr)) (h : Heap) :
    (allocCols h cols).2.map Prod.fst = cols.map Prod.fst := by
  induction cols generalizing h with
  | nil => rfl
  | cons p rest ih =>
    simp only [allocCols, List.map]
    rw [ih (h ++ [Heap.read h p.2])]

theorem allocCols_find_some (cols : List (String × Addr)) (h : Heap) (n : String)
    (p : String × Addr) (wf : ∀ q ∈ cols, q.2 < h.length)
    (hf : cols.find? (fun q => q.1 == n) = some p) :
    ∃ a, (allocCols h cols).2.find? (fun q => q.1 == n) = some (p.1, a) ∧
      h.length ≤ a ∧ a < (allocCols h cols).1.length ∧
      Heap.read (allocCols h cols).1 a = Heap.read h p.2 := by
  induction cols generalizing h with
  | nil => cases hf
  | cons q rest ih =>
    by_cases hq : q.1 = n
    · rw [List.find?_cons_of_pos _ (by simp [hq])] at hf
      have hpq : p = q := by injection hf with e; exact e.symm
      subst hpq
      refine ⟨h.length, ?_, Nat.le_refl _, ?_, ?_⟩
      · simp only [allocCols]
        rw [List.find?_cons_of_pos _ (by simp [hq])]
      · simp only [allocCols]
        exact Nat.lt_of_lt_of_le (by simp) (allocCols_len_le rest _)
      · simp only [allocCols]
        rw [allocCols_read_lt rest (h ++ [Heap.read h p.2]) h.length (by simp)]
        exact getD_append_len h (Heap.read h p.2) []
    · rw [List.find?_cons_of_neg _ (by simp [hq])] at hf
      have wfr : ∀ r ∈ rest, r.2 < (h ++ [Heap.read h q.2]).length := by
        intro r hr
        calc r.2 < h.length := wf r (List.mem_cons_of_mem _ hr)
        _ ≤ _ := by simp
      rcases ih (h ++ [Heap.read h q.2]) wfr hf with ⟨a, hfind, hge, hlt, hread⟩
      have hp2 : p.2 < h.length := by
        rcases find?_name_mem rest n p hf with ⟨hm, _⟩
        exact wf p (List.mem_cons_of_mem _ hm)
      refine ⟨a, ?_, ?_, ?_, ?_⟩
      · simp only [allocCols]
        rw [List.find?_cons_of_neg _ (by simp [hq])]
        exact hfind
      · exact Nat.le_trans (by simp) hge
      · simpa only [allocCols] using hlt
      · simp only [allocCols]
        rw [hread]
        exact read_append_lt h _ p.2 hp2

theorem copy_crs (h : Heap) (df : GeoDataFrame) (b : Bool) : (copy h df b).2.crs = df.crs := by
  cases b <;> simp [copy, _propogate_attributes]

theorem copy_index (h : Heap) (df : GeoDataFrame) (b : Bool) :
    (copy h df b).2.index = df.index := by
  cases b <;> simp [copy, _propogate_attributes]

theorem copy_shallow (h : Heap) (df : GeoDataFrame) :
    copy h df false = (h, { index := df.index, cols := df.cols, crs := df.crs }) := rfl

theorem copy_deep_cols (h : Heap) (df : GeoDataFrame) :
    (copy h df true).2.cols = (allocCols h df.cols).2 := by
  simp [copy, _propogate_attributes]

theorem copy_deep_heap (h : Heap) (df : GeoDataFrame) :
    (copy h df true).1 = (allocCols h df.cols).1 := by
  simp [copy]

theorem copy_colNames (h : Heap) (df : GeoDataFrame) :
    colNames (copy h df true).2 = colNames df := by
  rw [colNames, copy_deep_cols]
  exact allocCols_names df.cols h

theorem copy_read_lt (h : Heap) (df : GeoDataFrame) (a : Addr) (ha : a < h.length) :
    Heap.read (copy h df true).1 a = Heap.read h a := by
  rw [copy_deep_heap]
  exact allocCols_read_lt df.cols h a ha

theorem copy_len_le (h : Heap) (df : GeoDataFrame) :
    h.length ≤ (copy h df true).1.length := by
  rw [copy_deep_heap]
  exact allocCols_len_le df.cols h

theorem copy_fresh (h : Heap) (df : GeoDataFrame) :
    ∀ q ∈ (copy h df true).2.cols, h.length ≤ q.2 ∧ q.2 < (copy h df true).1.length := by
  rw [copy_deep_cols, copy_deep_heap]
  exact allocCols_fresh df.cols h

theorem copy_wfAddrs (h : Heap) (df : GeoDataFrame) :
    wfAddrs (copy h df true).1 (copy h df true).2 :=
  fun q hq => ((copy_fresh h df) q hq).2

theorem copy_getColumn (h : Heap) (df : GeoDataFrame) (n : String) (wf : wfAddrs h df) :
    getColumn (copy h df true).1 (copy h df true).2 n = getColumn h df n := by
  unfold getColumn
  rw [copy_deep_cols, copy_deep_heap]
  cases hf : df.cols.find? (fun q => q.1 == n) with
  | none =>
    rw [find?_name_eq_none _ n (by rw [allocCols_names]; exact find?_none_not_mem df.cols n hf)]
    rfl
  | some p =>
    rcases allocCols_find_some df.cols h n p wf hf with ⟨a, hfind, _, _, hread⟩
    rw [hfind]
    simp [hread]

theorem copy_lookup_some (h : Heap) (df : GeoDataFrame) (n : String) (a : Addr)
    (wf : wfAddrs h df) (ha : lookupCol df n = some a) :
    ∃ a', lookupCol (copy h df true).2 n = some a' ∧ h.length ≤ a' ∧
      a' < (copy h df true).1.length ∧
      Heap.read (copy h df true).1 a' = Heap.read h a := by
  unfold lookupCol at ha ⊢
  rw [copy_deep_cols]
  cases hf : df.cols.find? (fun q => q.1 == n) with
  | none => rw [hf] at ha; cases ha
  | some p =>
    rw [hf] at ha
    simp at ha
    rcases allocCols_find_some df.cols h n p wf hf with ⟨a', hfind, hge, hlt, hread⟩
    refine ⟨a', by simp [hfind], hge, by rw [copy_deep_heap]; exact hlt, ?_⟩
    rw [copy_deep_heap, hread, ha]

theorem commonPrefix2_prefix_left (a b : List Char) : commonPrefix2 a b <+: a := by
  induction a generalizing b with
  | nil => cases b <;> simp [commonPrefix2]
  | cons x xs ih =>
    cases b with
    | nil => simp [commonPrefix2]
    | cons y ys =>
      by_cases hxy : x = y
      · subst hxy
        rw [show commonPrefix2 (x :: xs) (x :: ys) = x :: commonPrefix2 xs ys from by
          simp [commonPrefix2]]
        exact List.cons_prefix_cons.mpr ⟨rfl, ih ys⟩
      · simp [commonPrefix2, hxy]

theorem commonPrefix2_prefix_right (a b : List Char) : commonPrefix2 a b <+: b := by
  induction a generalizing b with
  | nil => cases b <;> simp [commonPrefix2]
  | cons x xs ih =>
    cases b with
    | nil => simp [commonPrefix2]
    | cons y ys =>
      by_cases hxy : x = y
      · subst hxy
        rw [show commonPrefix2 (x :: xs) (x :: ys) = x :: commonPrefix2 xs ys from by
          simp [commonPrefix2]]
        exact List.cons_prefix_cons.mpr ⟨rfl, ih ys⟩
      · simp [commonPrefix2, hxy]

theorem commonPrefix2_greatest (a b c : List Char) (ha : c <+: a) (hb : c <+: b) :
    c <+: commonPrefix2 a b := by
  induction c generalizing a b with
  | nil => exact List.nil_prefix
  | cons x xs ih =>
    rcases ha with ⟨ta, hta⟩
    rcases hb with ⟨tb, htb⟩
    subst hta
    subst htb
    simpa [commonPrefix2] using ih (xs ++ ta) (xs ++ tb) ⟨ta, rfl⟩ ⟨tb, rfl⟩

theorem foldl_cp_prefix_acc (rest : List String) (acc : List Char) :
    rest.foldl (fun a t => commonPrefix2 a t.data) acc <+: acc := by
  induction rest generalizing acc with
  | nil => exact List.prefix_refl _
  | cons t ts ih =>
    simp only [List.foldl]
    exact (ih (commonPrefix2 acc t.data)).trans (commonPrefix2_prefix_left acc t.data)

theorem foldl_cp_prefix_mem (rest : List String) (acc : List Char) :
    ∀ t ∈ rest, rest.foldl (fun a t => commonPrefix2 a t.data) acc <+: t.data := by
  induction rest generalizing acc with
  | nil => intro t ht; cases ht
  | cons u ts ih =>
    intro t ht
    simp only [List.foldl]
    rcases List.mem_cons.mp ht with he | hm
    · subst he
      exact (foldl_cp_prefix_acc ts (commonPrefix2 acc t.data)).trans
        (commonPrefix2_prefix_right acc t.data)
    · exact ih (commonPrefix2 acc u.data) t hm

theorem foldl_cp_greatest (rest : List String) (acc c : List Char)
    (hacc : c <+: acc) (hmem : ∀ t ∈ rest, c <+: t.data) :
    c <+: rest.foldl (fun a t => commonPrefix2 a t.data) acc := by
  induction rest generalizing acc with
  | nil => exact hacc
  | cons u ts ih =>
    simp only [List.foldl]
    exact ih (commonPrefix2 acc u.data)
      (commonPrefix2_greatest acc u.data c hacc (hmem u (List.mem_cons_self u ts)))
      (fun t ht => hmem t (List.mem_cons_of_mem u ht))

theorem commonPrefixAll_prefix_all (l : List String) :
    ∀ t ∈ l, (commonPrefixAll l).data <+: t.data := by
  cases l with
  | nil => intro t ht; cases ht
  | cons s rest =>
    intro t ht
    rcases List.mem_cons.mp ht with he | hm
    · subst he
      exact foldl_cp_prefix_acc rest t.data
    · exact foldl_cp_prefix_mem rest s.data t hm

theorem commonPrefixAll_greatest (l : List String) (hne : l ≠ []) (c : List Char)
    (hc : ∀ t ∈ l, c <+: t.data) :
    c <+: (commonPrefixAll l).data := by
  cases l with
  | nil => exact absurd rfl hne
  | cons s rest =>
    exact foldl_cp_greatest rest s.data c (hc s (List.mem_cons_self s rest))
      (fun t ht => hc t (List.mem_cons_of_mem s ht))

theorem reverseStr_data (s : String) : (reverseStr s).data = s.data.reverse := rfl

theorem string_mk_data (s : String) : String.mk s.data = s := rfl

theorem inferGeomType_suffix (types : List String) :
    ∀ t ∈ types, (inferGeomType types).data <:+ t.data := by
  intro t ht
  have h := commonPrefixAll_prefix_all (types.map reverseStr) (reverseStr t)
    (List.mem_map.mpr ⟨t, ht, rfl⟩)
  rw [← List.reverse_prefix]
  simpa [inferGeomType, reverseStr] using h

theorem inferGeomType_greatest (types : List String) (hne : types ≠ []) (c : List Char)
    (hc : ∀ t ∈ types, c <:+ t.data) :
    c <:+ (inferGeomType types).data := by
  have h : c.reverse <+: (commonPrefixAll (types.map reverseStr)).data := by
    apply commonPrefixAll_greatest _ (by simpa using hne)
    intro u hu
    rcases List.mem_map.mp hu with ⟨t, ht, he⟩
    subst he
    rw [reverseStr_data, List.reverse_prefix]
    exact hc t ht
  rw [← List.reverse_suffix] at h
  simpa [inferGeomType, reverseStr] using h

theorem inferGeomType_singleton (t : String) : inferGeomType [t] = t := by
  simp [inferGeomType, commonPrefixAll, reverseStr]

theorem mem_unique (l : List String) (t : String) : t ∈ unique l ↔ t ∈ l := by
  induction l with
  | nil => simp [unique]
  | cons x xs ih =>
    simp only [unique, List.mem_cons, List.mem_filter]
    constructor
    · intro h
      rcases h with h | ⟨h, _⟩
      · exact Or.inl h
      · exact Or.inr (ih.mp h)
    · intro h
      rcases h with h | h
      · exact Or.inl h
      · by_cases ht : t = x
        · exact Or.inl ht
        · exact Or.inr ⟨ih.mpr h, by simp [ht]⟩

theorem geom_type_ne_empty (g : Geom) : geom_type g ≠ "" := by
  cases g <;> simp [geom_type]

theorem collectFeatures_eq_map (g : Value × List (String × Value) → Feature)
    (l : List (Value × List (String × Value)))
    (hall : ∀ r ∈ l, feature r.1 r.2 = some (g r)) :
    collectFeatures l = some (l.map g) := by
  induction l with
  | nil => rfl
  | cons r rest ih =>
    simp only [collectFeatures, hall r (List.mem_cons_self r rest),
      ih (fun q hq => hall q (List.mem_cons_of_mem r hq)), List.map]

theorem writeLoop_shape (w : Feature → Except String Unit) (l : List (Option Feature)) :
    ∃ ws : List Feature, (writeLoop w l).1 = ws.map FileEvent.wrote ∧
      ws.map Option.some <+: l := by
  induction l with
  | nil => exact ⟨[], rfl, List.nil_prefix⟩
  | cons o rest ih =>
    cases o with
    | none => exact ⟨[], rfl, List.nil_prefix⟩
    | some f =>
      cases hw : w f with
      | error e => exact ⟨[], by simp [writeLoop, hw], List.nil_prefix⟩
      | ok u =>
        rcases ih with ⟨ws, h₁, h₂⟩
        refine ⟨f :: ws, ?_, ?_⟩
        · simp [writeLoop, hw, h₁]
        · exact List.cons_prefix_cons.mpr ⟨rfl, h₂⟩

theorem find?_map_pair (cols : List (String × Addr)) (g : String × Addr → Value) (n : String) :
    (cols.map (fun p => (p.1, g p))).find? (fun p => p.1 == n)
      = (cols.find? (fun p => p.1 == n)).map (fun p => (p.1, g p)) := by
  induction cols with
  | nil => rfl
  | cons q rest ih =>
    by_cases hq : q.1 = n
    · rw [List.map_cons, List.find?_cons_of_pos _ (by simpa using hq),
        List.find?_cons_of_pos _ (by simpa using hq)]
      rfl
    · rw [List.map_cons, List.find?_cons_of_neg _ (by simpa using hq),
        List.find?_cons_of_neg _ (by simpa using hq), ih]

theorem filter_map_pair (cols : List (String × Addr)) (g : String × Addr → Value) (n : String) :
    (cols.map (fun p => (p.1, g p))).filter (fun p => p.1 != n)
      = (cols.filter (fun p => p.1 != n)).map (fun p => (p.1, g p)) := by
  induction cols with
  | nil => rfl
  | cons q rest ih =>
    by_cases hq : q.1 = n
    · simp only [List.map_cons, List.filter, hq]
      simpa using ih
    · simp only [List.map_cons, List.filter]
      have hb : ((q.1 : String) != n) = true := by simp [hq]
      simp only [hb]
      rw [List.map_cons, ih]

theorem getD_mem_values (l : List Value) (k : Nat) (hk : k < l.length) :
    l.getD k (Value.int 0) ∈ l := by
  induction l generalizing k with
  | nil => simp at hk
  | cons x xs ih =>
    cases k with
    | zero => exact List.mem_cons_self x xs
    | succ k => exact List.mem_cons_of_mem x (ih k (Nat.lt_of_succ_lt_succ hk))

/-- C1: for every GeoDataFrame with a geometry column, indexed access
re-classifies the delegated result: the geometry key yields a GeoSeries with
the crs of the frame whose values are the geometry column values in row order;
a table-shaped result still holding a geometry column becomes a GeoDataFrame
with the crs of the frame; anything else is returned unchanged; and the
re-classification never duplicates or copies the underlying data. -/
theorem C1_getitem_reclassify (h : Heap) (df : GeoDataFrame)
    (hg : "geometry" ∈ colNames df) : C1Prop h df := by
  refine ⟨?_, ?_, ?_, ?_⟩
  · rcases find?_name_of_mem df.cols "geometry" hg with ⟨p, hp, hpn⟩
    refine ⟨p.2, by simp [lookupCol, hp], ?_, by simp [getColumn, hp]⟩
    simp [getItem, baseGetItem, hp, keyIsGeometryStr, reclassGeoSeries, hpn]
  · intro ss r hr hgeom
    by_cases hall : ss.all (fun s => df.cols.any (fun p => p.1 == s)) = true
    · by_cases hc : (ss.filterMap
          (fun s => (df.cols.find? (fun p => p.1 == s)).map (fun p => (s, p.2)))).any
            (fun p => p.1 == "geometry") = true
      · simp [getItem, baseGetItem, hall, keyIsGeometryStr, isFrameResult,
          resultHasGeometryCol, hc, reclassGeoFrame] at hr
        exact ⟨_, hr.symm⟩
      · simp [getItem, baseGetItem, hall, keyIsGeometryStr, isFrameResult,
          resultHasGeometryCol, hc, reclassGeoFrame] at hr
        rw [← hr] at hgeom
        simp [resultHasGeometryCol, hc] at hgeom
    · simp [getItem, baseGetItem, hall] at hr
  · intro key r hb h1 h2
    simp [getItem, hb, h1, h2]
    intro hf2 hg2
    rw [hf2, hg2] at h2
    cases h2
  · intro key
    cases key with
    | str s =>
      cases hf : df.cols.find? (fun p => p.1 == s) with
      | none => simp [getItem, baseGetItem, hf]
      | some p =>
        by_cases hs : s = "geometry"
        · subst hs
          simp [getItem, baseGetItem, hf, keyIsGeometryStr, reclassGeoSeries, stripClass]
        · simp [getItem, baseGetItem, hf, keyIsGeometryStr, hs, isFrameResult, stripClass]
    | strs ss =>
      by_cases hall : ss.all (fun s => df.cols.any (fun p => p.1 == s)) = true
      · by_cases hc : (ss.filterMap
            (fun s => (df.cols.find? (fun p => p.1 == s)).map (fun p => (s, p.2)))).any
              (fun p => p.1 == "geometry") = true
        · simp [getItem, baseGetItem, hall, keyIsGeometryStr, isFrameResult,
            resultHasGeometryCol, hc, reclassGeoFrame, stripClass]
        · simp [getItem, baseGetItem, hall, keyIsGeometryStr, isFrameResult,
            resultHasGeometryCol, hc, reclassGeoFrame, stripClass]
      · simp [getItem, baseGetItem, hall]

/-- Witness for C1: the re-classification facts at a concrete frame. -/
theorem C1_witness : C1Prop exHeap exDf :=
  C1_getitem_reclassify exHeap exDf (by decide)

/-- C10: a Series source (a GeoSeries included) contributes only its raw
values: its own row index and crs are discarded and the values are installed
positionally as the geometry column. -/
theorem C10_series_positional (h : Heap) (df : GeoDataFrame) (vals : List Value)
    (drop inplace : Bool) : C10Prop h df vals drop inplace := by
  constructor
  · intro idx₁ idx₂ crs₁ crs₂
    rfl
  · intro s hs
    subst hs
    cases inplace with
    | false => exact ⟨_, _, rfl, setColumn_get_self _ _ _ _⟩
    | true => exact ⟨_, _, rfl, setColumn_get_self _ _ _ _⟩

theorem geometryValues_eq (h : Heap) (df : GeoDataFrame) :
    geometryValues h df = getColumn h df "geometry" := by
  unfold geometryValues geometry
  cases hf : df.cols.find? (fun p => p.1 == "geometry") with
  | none => simp [getItem, baseGetItem, hf, getColumn]
  | some p =>
    simp [getItem, baseGetItem, hf, keyIsGeometryStr, reclassGeoSeries, getColumn]

/-- Counterexample to C2 as stated: with the falsy column name (the empty
string), set_geometry(c, drop=True) extracts and installs the values but does
not remove the original column, so c is still present in the resulting
columns, contradicting that c is left absent. -/
theorem C2_counterexample :
    (set_geometry [[Value.int 7]]
        { index := [Value.int 0], cols := [("", 0)], crs := none }
        (GeomSource.name "") true false =
      some ([[Value.int 7], [Value.int 7], [Value.int 7]],
        { index := [Value.int 0], cols := [("", 0)], crs := none },
        some { index := [Value.int 0], cols := [("", 1), ("geometry", 2)], crs := none })) ∧
    "" ∈ colNames
      { index := [Value.int 0], cols := [("", 1), ("geometry", 2)], crs := none } :=
  ⟨rfl, by decide⟩

/-- C2 (amended): for a truthy (non-empty) existing column name c,
set_geometry(c, drop=True, inplace=False) extracts the values of c before any
removal (collision-safe, c equal to the geometry name included), installs them
as the geometry column of an independent copy with disjoint storage, leaves
the receiver unmodified, and c is absent from the resulting columns whenever c
is not itself the geometry name; afterwards the geometry accessor returns
exactly the values originally in c. -/
theorem C2_set_geometry_amended (h : Heap) (df : GeoDataFrame) (c : String) (a : Addr)
    (wf : wfAddrs h df) (hc : c ≠ "") (ha : lookupCol df c = some a) : C2Prop h df c := by
  obtain ⟨a', ha', hge', hlt', hread'⟩ := copy_lookup_some h df c a wf ha
  have hgc : getColumn (copy h df true).1 (copy h df true).2 c = some (Heap.read h a) := by
    rw [getColumn_of_lookup _ _ _ _ ha', hread']
  have hcb : (c == "") = false := by simp [hc]
  have heq : set_geometry h df (GeomSource.name c) true false =
      some ((setColumn (copy h df true).1 (delColumn (copy h df true).2 c) "geometry"
              (Heap.read h a)).1,
        df,
        some (setColumn (copy h df true).1 (delColumn (copy h df true).2 c) "geometry"
              (Heap.read h a)).2) := by
    simp only [set_geometry, Bool.false_eq_true, if_false, hgc, if_true, hcb]
  refine ⟨_, _, heq, ?_, ?_, ?_, ?_⟩
  · rw [geometryValues_eq, setColumn_get_self, getColumn_of_lookup h df c a ha]
  · intro hne hmem
    rcases (setColumn_colNames_mem _ _ _ _ c).mp hmem with hm | hm
    · exact delColumn_not_mem_names _ c hm
    · exact hne hm
  · intro n
    rw [setColumn_fst]
    apply getColumn_congr
    intro p hp
    rw [read_append_lt _ _ p.2 (Nat.lt_of_lt_of_le (wf p hp) (copy_len_le h df)),
      copy_read_lt h df p.2 (wf p hp)]
  · intro p hp q hq
    have hqlt : q.2 < h.length := wf q hq
    rcases setColumn_mem_cases _ _ _ _ p hp with ⟨hm, _⟩ | ⟨_, he⟩
    · have hmc := (delColumn_mem _ c p hm).1
      have hple : h.length ≤ p.2 := (copy_fresh h df p hmc).1
      intro e
      rw [e] at hple
      exact Nat.lt_irrefl _ (Nat.lt_of_lt_of_le hqlt hple)
    · have hple : h.length ≤ p.2 := by
        rw [he]
        exact copy_len_le h df
      intro e
      rw [e] at hple
      exact Nat.lt_irrefl _ (Nat.lt_of_lt_of_le hqlt hple)

/-- Witness for the amended C2 at a concrete frame and column. -/
theorem C2_witness : C2Prop exHeap exDf "name" :=
  C2_set_geometry_amended exHeap exDf "name" 0 (by decide) (by decide) (by decide)

theorem set_geometry_name_falsy (h : Heap) (df : GeoDataFrame) (inplace : Bool)
    (vs : List Value)
    (hgc : getColumn (if inplace then (h, df) else copy h df true).1
        (if inplace then (h, df) else copy h df true).2 "" = some vs) :
    set_geometry h df (GeomSource.name "") true inplace =
      some ((setColumn (if inplace then (h, df) else copy h df true).1
              (if inplace then (h, df) else copy h df true).2 "geometry" vs).1,
        (if inplace then
          (setColumn (if inplace then (h, df) else copy h df true).1
              (if inplace then (h, df) else copy h df true).2 "geometry" vs).2
         else df),
        (if inplace then none
         else some (setColumn (if inplace then (h, df) else copy h df true).1
              (if inplace then (h, df) else copy h df true).2 "geometry" vs).2)) := by
  simp only [set_geometry]
  rw [hgc]
  rfl

theorem set_geometry_name_truthy (h : Heap) (df : GeoDataFrame) (c : String)
    (inplace : Bool) (vs : List Value) (hcb : (c == "") = false)
    (hgc : getColumn (if inplace then (h, df) else copy h df true).1
        (if inplace then (h, df) else copy h df true).2 c = some vs) :
    set_geometry h df (GeomSource.name c) true inplace =
      some ((setColumn (if inplace then (h, df) else copy h df true).1
              (delColumn (if inplace then (h, df) else copy h df true).2 c)
              "geometry" vs).1,
        (if inplace then
          (setColumn (if inplace then (h, df) else copy h df true).1
              (delColumn (if inplace then (h, df) else copy h df true).2 c)
              "geometry" vs).2
         else df),
        (if inplace then none
         else some (setColumn (if inplace then (h, df) else copy h df true).1
              (delColumn (if inplace then (h, df) else copy h df true).2 c)
              "geometry" vs).2)) := by
  simp only [set_geometry]
  rw [hgc]
  simp [hcb]

/-- C9 (implicit claim): the removal step of set_geometry is guarded by Python
truthiness of the stored column name rather than a not-None test, so a column
whose name is falsy (the empty string) is installed as the geometry column but
never removed, while a truthy column name has its original binding removed. -/
theorem C9_truthiness_guard (h : Heap) (df : GeoDataFrame) (c : String) (a₀ a₁ : Addr)
    (wf : wfAddrs h df) (h₀ : lookupCol df "" = some a₀)
    (hc : c ≠ "") (h₁ : lookupCol df c = some a₁) : C9Prop h df c a₁ := by
  have hmem0 : "" ∈ colNames df := by
    rcases lookup_mem_addr df "" a₀ h₀ with ⟨q, hq, hqn, _⟩
    exact List.mem_map.mpr ⟨q, hq, hqn⟩
  constructor
  · intro inplace
    cases inplace with
    | true =>
      have hgc : getColumn h df "" = some (Heap.read h a₀) :=
        getColumn_of_lookup h df "" a₀ h₀
      have heq : set_geometry h df (GeomSource.name "") true true =
          some ((setColumn h df "geometry" (Heap.read h a₀)).1,
            (setColumn h df "geometry" (Heap.read h a₀)).2, none) :=
        set_geometry_name_falsy h df true (Heap.read h a₀) hgc
      refine ⟨_, _, heq, ?_, ?_⟩
      · exact (setColumn_colNames_mem _ _ _ _ "").mpr (Or.inl hmem0)
      · rw [geometryValues_eq]
        have := setColumn_get_self h df "geometry" (Heap.read h a₀)
        exact this.trans hgc.symm
    | false =>
      obtain ⟨a₀', ha₀', _, _, hread₀'⟩ := copy_lookup_some h df "" a₀ wf h₀
      have hgc : getColumn (copy h df true).1 (copy h df true).2 "" =
          some (Heap.read h a₀) := by
        rw [getColumn_of_lookup _ _ _ _ ha₀', hread₀']
      have heq : set_geometry h df (GeomSource.name "") true false =
          some ((setColumn (copy h df true).1 (copy h df true).2 "geometry"
                  (Heap.read h a₀)).1,
            df,
            some (setColumn (copy h df true).1 (copy h df true).2 "geometry"
                  (Heap.read h a₀)).2) :=
        set_geometry_name_falsy h df false (Heap.read h a₀) hgc
      refine ⟨_, _, heq, ?_, ?_⟩
      · refine (setColumn_colNames_mem _ _ _ _ "").mpr (Or.inl ?_)
        rw [copy_colNames]
        exact hmem0
      · rw [geometryValues_eq]
        have := setColumn_get_self (copy h df true).1 (copy h df true).2 "geometry"
          (Heap.read h a₀)
        exact this.trans (getColumn_of_lookup h df "" a₀ h₀).symm
  · have hgc1 : getColumn h df c = some (Heap.read h a₁) :=
      getColumn_of_lookup h df c a₁ h₁
    have hcb : (c == "") = false := by simp [hc]
    have ha₁lt : a₁ < h.length := by
      rcases lookup_mem_addr df c a₁ h₁ with ⟨q, hq, _, hqa⟩
      rw [← hqa]
      exact wf q hq
    have heq : set_geometry h df (GeomSource.name c) true true =
        some ((setColumn h (delColumn df c) "geometry" (Heap.read h a₁)).1,
          (setColumn h (delColumn df c) "geometry" (Heap.read h a₁)).2, none) :=
      set_geometry_name_truthy h df c true (Heap.read h a₁) hcb hgc1
    refine ⟨_, _, heq, ?_, ?_⟩
    · intro p hp
      rcases setColumn_mem_cases _ _ _ _ p hp with ⟨hm, _⟩ | ⟨_, he⟩
      · intro e
        have hpc : p.1 ≠ c := (delColumn_mem _ c p hm).2
        rw [e] at hpc
        exact hpc rfl
      · intro e
        rw [e] at he
        have he2 : a₁ = List.length h := he
        rw [he2] at ha₁lt
        exact Nat.lt_irrefl _ ha₁lt
    · intro hne hmem
      rcases (setColumn_colNames_mem _ _ _ _ c).mp hmem with hm | hm
      · exact delColumn_not_mem_names _ c hm
      · exact hne hm

/-- Witness for C9 at a concrete frame holding an empty-string-named column
and a truthy column. -/
theorem C9_witness : C9Prop exHeapE exDfE "a" 1 :=
  C9_truthiness_guard exHeapE exDfE "a" 0 1 (by decide) (by decide) (by decide) (by decide)

/-- Witness for C10 (the claim theorem has no Prop hypotheses; this applies it
at a concrete frame and value vector). -/
theorem C10_witness : C10Prop exHeap exDf [Value.int 1, Value.int 2] true false :=
  C10_series_positional exHeap exDf [Value.int 1, Value.int 2] true false

theorem to_crs_eq (t : Int × Int → Int × Int) (h : Heap) (df : GeoDataFrame)
    (target : Option String) (inplace : Bool) (vals : List Value)
    (hgc : getColumn (if inplace then (h, df) else copy h df true).1
        (if inplace then (h, df) else copy h df true).2 "geometry" = some vals) :
    to_crs t h df target inplace =
      some ((setColumn (if inplace then (h, df) else copy h df true).1
              (if inplace then (h, df) else copy h df true).2 "geometry"
              (vals.map (transformValue t))).1,
        (if inplace then
          { (setColumn (if inplace then (h, df) else copy h df true).1
              (if inplace then (h, df) else copy h df true).2 "geometry"
              (vals.map (transformValue t))).2 with crs := target }
         else df),
        (if inplace then none
         else some { (setColumn (if inplace then (h, df) else copy h df true).1
              (if inplace then (h, df) else copy h df true).2 "geometry"
              (vals.map (transformValue t))).2 with crs := target })) := by
  simp only [to_crs]
  rw [hgc]
  rfl

theorem setColumn_index (h : Heap) (df : GeoDataFrame) (n : String) (vals : List Value) :
    (setColumn h df n vals).2.index = df.index := by
  by_cases hany : df.cols.any (fun p => p.1 == n) = true <;> simp [setColumn, hany]

/-- C3: to_crs replaces the geometry column with the pointwise reprojected
values and updates the crs of the frame to the target; with inplace false it
operates on an independent copy, returns it and leaves the receiver untouched,
with inplace true it mutates the receiver and returns nothing. -/
theorem C3_to_crs (t : Int × Int → Int × Int) (h : Heap) (df : GeoDataFrame)
    (target : Option String) (wf : wfAddrs h df) (hg : "geometry" ∈ colNames df) :
    C3Prop t h df target := by
  rcases lookupCol_of_mem df "geometry" hg with ⟨a, ha⟩
  have hgc : getColumn h df "geometry" = some (Heap.read h a) :=
    getColumn_of_lookup h df "geometry" a ha
  have hgcop : "geometry" ∈ colNames (copy h df true).2 := by
    rw [copy_colNames]; exact hg
  constructor
  · obtain ⟨a', ha', _, _, hread'⟩ := copy_lookup_some h df "geometry" a wf ha
    have hgc' : getColumn (copy h df true).1 (copy h df true).2 "geometry" =
        some (Heap.read h a) := by
      rw [getColumn_of_lookup _ _ _ _ ha', hread']
    have heq : to_crs t h df target false =
        some ((setColumn (copy h df true).1 (copy h df true).2 "geometry"
                ((Heap.read h a).map (transformValue t))).1,
          df,
          some { (setColumn (copy h df true).1 (copy h df true).2 "geometry"
                ((Heap.read h a).map (transformValue t))).2 with crs := target }) :=
      to_crs_eq t h df target false (Heap.read h a) hgc'
    refine ⟨_, _, heq, rfl, ?_, ?_, ?_⟩
    · have := setColumn_get_self (copy h df true).1 (copy h df true).2 "geometry"
        ((Heap.read h a).map (transformValue t))
      rw [hgc]
      exact this
    · show colNames (setColumn (copy h df true).1 (copy h df true).2 "geometry"
          ((Heap.read h a).map (transformValue t))).2 = colNames df
      rw [setColumn_colNames_of_mem _ _ _ _ hgcop, copy_colNames]
    · intro n
      rw [setColumn_fst]
      apply getColumn_congr
      intro p hp
      rw [read_append_lt _ _ p.2 (Nat.lt_of_lt_of_le (wf p hp) (copy_len_le h df)),
        copy_read_lt h df p.2 (wf p hp)]
  · have heq : to_crs t h df target true =
        some ((setColumn h df "geometry" ((Heap.read h a).map (transformValue t))).1,
          { (setColumn h df "geometry" ((Heap.read h a).map (transformValue t))).2 with
            crs := target },
          none) :=
      to_crs_eq t h df target true (Heap.read h a) hgc
    refine ⟨_, _, heq, rfl, ?_, ?_, ?_⟩
    · show (setColumn h df "geometry"
          ((Heap.read h a).map (transformValue t))).2.index = df.index
      exact setColumn_index h df "geometry" _
    · show colNames (setColumn h df "geometry"
          ((Heap.read h a).map (transformValue t))).2 = colNames df
      exact setColumn_colNames_of_mem _ _ _ _ hg
    · have := setColumn_get_self h df "geometry" ((Heap.read h a).map (transformValue t))
      rw [hgc]
      exact this

/-- Witness for C3 at a concrete frame, target crs and translation. -/
theorem C3_witness : C3Prop (fun p => (p.1 + 10, p.2)) exHeap exDf (some "epsg:3857") :=
  C3_to_crs (fun p => (p.1 + 10, p.2)) exHeap exDf (some "epsg:3857")
    (by decide) (by decide)

/-- C4: copy(deep=True) yields a frame with the crs propagated explicitly and
independent storage, so mutating the geometry column of the copy leaves the
source column unchanged; copy(deep=False) propagates the crs but aliases the
storage, so a cell-level mutation through the copy is visible through both. -/
theorem C4_copy (h : Heap) (df : GeoDataFrame) (a : Addr) (i : Nat) (v : Value)
    (wf : wfAddrs h df) (ha : lookupCol df "geometry" = some a) : C4Prop h df a i v := by
  obtain ⟨a', ha', hge', hlt', hread'⟩ := copy_lookup_some h df "geometry" a wf ha
  have halt : a < h.length := by
    rcases lookup_mem_addr df "geometry" a ha with ⟨q, hq, _, hqa⟩
    rw [← hqa]
    exact wf q hq
  constructor
  · have hset : setCellCol (copy h df true).1 (copy h df true).2 "geometry" i v =
        ((copy h df true).1).set a' ((((copy h df true).1).getD a' []).set i v) := by
      simp only [setCellCol, ha']
    refine ⟨copy_crs h df true, copy_colNames h df,
      (fun n => copy_getColumn h df n wf), ?_, ?_⟩
    · rw [hset]
      have hcong : ∀ p ∈ df.cols,
          Heap.read (((copy h df true).1).set a'
            ((((copy h df true).1).getD a' []).set i v)) p.2 = Heap.read h p.2 := by
        intro p hp
        have hne : a' ≠ p.2 := by
          have := wf p hp
          intro e
          rw [e] at hge'
          exact Nat.lt_irrefl _ (Nat.lt_of_lt_of_le this hge')
        show (((copy h df true).1).set a' _).getD p.2 [] = Heap.read h p.2
        rw [getD_set_ne _ _ _ _ hne]
        exact copy_read_lt h df p.2 (wf p hp)
      rw [getColumn_congr _ h df "geometry" hcong]
    · rw [hset, getColumn_of_lookup _ _ _ _ ha']
      show some ((((copy h df true).1).set a' _).getD a' []) = _
      rw [getD_set_self _ _ _ hlt']
      rw [show (((copy h df true).1).getD a' []) = Heap.read h a from hread']
  · have ha₂ : lookupCol (copy h df false).2 "geometry" = some a := ha
    have hset₂ : setCellCol h (copy h df false).2 "geometry" i v =
        h.set a ((h.getD a []).set i v) := by
      simp only [setCellCol, ha₂]
    refine ⟨copy_crs h df false, rfl, ?_, ?_⟩
    · rw [hset₂, getColumn_of_lookup _ _ _ _ ha]
      show some ((h.set a _).getD a []) = _
      rw [getD_set_self _ _ _ halt]
      rfl
    · rw [hset₂, getColumn_of_lookup _ _ _ _ ha₂]
      show some ((h.set a _).getD a []) = _
      rw [getD_set_self _ _ _ halt]
      rfl

/-- Witness for C4 at a concrete frame, cell position and value. -/
theorem C4_witness : C4Prop exHeap exDf 1 0 (Value.geom (Geom.point (5, 5))) :=
  C4_copy exHeap exDf 1 0 (Value.geom (Geom.point (5, 5))) (by decide) (by decide)

theorem to_file_eq_open (w : Feature → Except String Unit) (h : Heap) (df : GeoDataFrame)
    (gvals : List Value)
    (hg : getColumn h df "geometry" = some gvals)
    (hall : gvals.all isGeomVal = true)
    (hgt : (inferGeomType (distinctGeomTypes gvals) == "") = false) :
    to_file w h df =
      { events := FileEvent.opened
          { geometry := inferGeomType (distinctGeomTypes gvals),
            properties := schemaProps h df } df.crs ::
          ((writeLoop w (rowFeaturesOf h df)).1 ++ [FileEvent.closed]),
        error := (writeLoop w (rowFeaturesOf h df)).2 } := by
  simp only [to_file]
  rw [hg]
  simp only [hall, if_true, hgt, Bool.false_eq_true, if_false]

theorem to_file_eq_err (w : Feature → Except String Unit) (h : Heap) (df : GeoDataFrame)
    (gvals : List Value)
    (hg : getColumn h df "geometry" = some gvals)
    (hall : gvals.all isGeomVal = true)
    (hgt : (inferGeomType (distinctGeomTypes gvals) == "") = true) :
    to_file w h df = { events := [], error := some errMsgMultiGeom } := by
  simp only [to_file]
  rw [hg]
  simp only [hall, if_true, hgt]

/-- C5: the single geometry type written into the schema is determined from
the distinct per-row geometry type names: one distinct name is used as is;
with several, the longest suffix shared by all of them is used; and the export
fails exactly when no non-empty shared suffix exists. -/
theorem C5_schema_geom_type (h : Heap) (df : GeoDataFrame) (gvals : List Value)
    (hg : getColumn h df "geometry" = some gvals)
    (hne : gvals ≠ [])
    (hall : gvals.all isGeomVal = true) : C5Prop h df gvals := by
  have htypesne : distinctGeomTypes gvals ≠ [] := by
    cases gvals with
    | nil => exact absurd rfl hne
    | cons v vs => simp [distinctGeomTypes, unique]
  refine ⟨?_, ?_, ?_, ?_, ?_⟩
  · intro t ht
    rw [ht, inferGeomType_singleton]
  · exact inferGeomType_suffix _
  · intro s hs
    have hsuf := inferGeomType_greatest _ htypesne s.data hs
    show s.data.length ≤ (inferGeomType (distinctGeomTypes gvals)).data.length
    exact List.IsSuffix.length_le hsuf
  · intro hgt w
    exact ⟨_, by rw [to_file_eq_open w h df gvals hg hall (by simp [hgt])]⟩
  · intro hgt w
    exact to_file_eq_err w h df gvals hg hall (by simp [hgt])

/-- Witness for C5 at a concrete frame with mixed Point and MultiPoint rows. -/
theorem C5_witness :
    C5Prop [[Value.geom (Geom.point (0, 0)), Value.geom (Geom.multiPoint [(1, 1)])]]
      { index := [Value.int 0, Value.int 1], cols := [("geometry", 0)], crs := none }
      [Value.geom (Geom.point (0, 0)), Value.geom (Geom.multiPoint [(1, 1)])] :=
  C5_schema_geom_type _ _ _ (by decide) (by decide) (by decide)

/-- C6: suffix-incompatible geometry types make export_to_vector_file raise
the exact ValueError of the source before any resource event (no partial
file); a single distinct geometry type passes the schema check and the
resource is opened with that type. -/
theorem C6_mixed_types_fail (w : Feature → Except String Unit) (h : Heap)
    (df : GeoDataFrame) (gvals : List Value)
    (hg : getColumn h df "geometry" = some gvals)
    (hall : gvals.all isGeomVal = true) : C6Prop w h df gvals := by
  constructor
  · intro hnosuf
    apply to_file_eq_err w h df gvals hg hall
    have hzero : inferGeomType (distinctGeomTypes gvals) = "" :=
      hnosuf _ (inferGeomType_suffix (distinctGeomTypes gvals))
    simp [hzero]
  · intro t ht
    have hgt : inferGeomType (distinctGeomTypes gvals) = t := by
      rw [ht, inferGeomType_singleton]
    have htne : t ≠ "" := by
      have htm : t ∈ distinctGeomTypes gvals := by
        rw [ht]
        exact List.mem_singleton.mpr rfl
      rcases List.mem_map.mp ((mem_unique _ t).mp htm) with ⟨v, _, he⟩
      rw [← he]
      exact geom_type_ne_empty _
    refine ⟨(writeLoop w (rowFeaturesOf h df)).1 ++ [FileEvent.closed], ?_⟩
    rw [to_file_eq_open w h df gvals hg hall (by simp [hgt, htne]), hgt]

/-- Witness for C6 at a concrete frame whose geometry column mixes Point and
Polygon (no shared suffix). -/
theorem C6_witness :
    C6Prop (fun _ => Except.ok ()) exHeapM exDfM
      [Value.geom (Geom.point (0, 0)), Value.geom (Geom.polygon [(0, 0), (1, 0), (1, 1)])] :=
  C6_mixed_types_fail (fun _ => Except.ok ()) exHeapM exDfM _ (by decide) (by decide)

/-- C8: to_file either fails before acquiring the file resource (empty trace)
or opens it exactly once, writes the successful row features in order with no
retry, and closes it on every exit path, the write-loop error propagating to
the caller after the close. -/
theorem C8_scoped_resource (w : Feature → Except String Unit) (h : Heap)
    (df : GeoDataFrame) : C8Prop w h df := by
  cases hg : getColumn h df "geometry" with
  | none =>
    left
    constructor <;> simp [to_file, hg]
  | some gvals =>
    cases hall : gvals.all isGeomVal with
    | false =>
      left
      constructor <;> simp [to_file, hg, hall]
    | true =>
      cases hgt : inferGeomType (distinctGeomTypes gvals) == "" with
      | true =>
        left
        rw [to_file_eq_err w h df gvals hg hall hgt]
        exact ⟨rfl, rfl⟩
      | false =>
        right
        rw [to_file_eq_open w h df gvals hg hall hgt]
        rcases writeLoop_shape w (rowFeaturesOf h df) with ⟨ws, hws, hpre⟩
        exact ⟨_, ws, by rw [hws], hpre, rfl⟩

theorem lookupRow_rowAt (h : Heap) (df : GeoDataFrame) (k : Nat) (n : String) :
    lookupRow (rowAt h df k) n = (df.cols.find? (fun p => p.1 == n)).map
      (fun p => (Heap.read h p.2).getD k (Value.int 0)) := by
  unfold lookupRow rowAt
  rw [find?_map_pair df.cols (fun p => (Heap.read h p.2).getD k (Value.int 0)) n]
  cases df.cols.find? (fun p => p.1 == n) <;> rfl

theorem find?_pair_of_lookup (df : GeoDataFrame) (n : String) (a : Addr)
    (ha : lookupCol df n = some a) :
    df.cols.find? (fun p => p.1 == n) = some (n, a) := by
  unfold lookupCol at ha
  cases hf : df.cols.find? (fun p => p.1 == n) with
  | none => rw [hf] at ha; cases ha
  | some p =>
    rw [hf] at ha
    simp at ha
    rcases find?_name_mem df.cols n p hf with ⟨_, hpn⟩
    cases p with
    | mk p1 p2 =>
      simp at hpn ha
      rw [hpn, ha]

/-- C7: to_json produces the FeatureCollection envelope holding one Feature
per row in row order, each with the stringified index label as id, the
non-geometry columns as properties, and the geometry cell in interchange
form. -/
theorem C7_to_json (h : Heap) (df : GeoDataFrame) (ga : Addr)
    (hga : lookupCol df "geometry" = some ga)
    (hlen : (Heap.read h ga).length = df.index.length)
    (hall : (Heap.read h ga).all isGeomVal = true) : C7Prop h df ga := by
  have hfind : df.cols.find? (fun p => p.1 == "geometry") = some ("geometry", ga) :=
    find?_pair_of_lookup df "geometry" ga hga
  have hlr : ∀ k, lookupRow (rowAt h df k) "geometry" =
      some ((Heap.read h ga).getD k (Value.int 0)) := by
    intro k
    rw [lookupRow_rowAt, hfind]
    rfl
  have hfeat : ∀ r ∈ iterrows h df, feature r.1 r.2 = some
      ({ id := strOfValue r.1, type := "Feature",
         properties := r.2.filter (fun p => p.1 != "geometry"),
         geometry := mapping (asGeom ((lookupRow r.2 "geometry").getD (Value.int 0))) }
        : Feature) := by
    intro r hr
    rcases List.mem_map.mp hr with ⟨k, hk, hr'⟩
    have hkn : k < df.index.length := List.mem_range.mp hk
    have hv : isGeomVal ((Heap.read h ga).getD k (Value.int 0)) = true :=
      List.all_eq_true.mp hall _ (getD_mem_values _ k (by rw [hlen]; exact hkn))
    subst hr'
    cases hveq : (Heap.read h ga).getD k (Value.int 0) with
    | int n0 => rw [hveq] at hv; cases hv
    | str s0 => rw [hveq] at hv; cases hv
    | geom g0 =>
      show feature (df.index.getD k (Value.int 0)) (rowAt h df k) = _
      unfold feature
      rw [hlr k, hveq]
      simp [asGeom, hlr k, hveq]
  have hcollect := collectFeatures_eq_map _ (iterrows h df) hfeat
  show to_json h df = _
  unfold to_json
  rw [hcollect]
  have hfeatures : (iterrows h df).map
      (fun r =>
        ({ id := strOfValue r.1, type := "Feature",
           properties := r.2.filter (fun p => p.1 != "geometry"),
           geometry := mapping (asGeom ((lookupRow r.2 "geometry").getD (Value.int 0))) }
          : Feature)) =
      (List.range df.index.length).map (fun k =>
        ({ id := strOfValue (df.index.getD k (Value.int 0)),
           type := "Feature",
           properties := (df.cols.filter (fun p => p.1 != "geometry")).map
             (fun p => (p.1, (Heap.read h p.2).getD k (Value.int 0))),
           geometry := mapping (asGeom ((Heap.read h ga).getD k (Value.int 0))) }
          : Feature)) := by
    unfold iterrows
    rw [List.map_map]
    apply List.map_congr_left
    intro k hk
    show ({ id := _, type := "Feature",
            properties := (rowAt h df k).filter (fun p => p.1 != "geometry"),
            geometry := mapping (asGeom ((lookupRow (rowAt h df k) "geometry").getD
              (Value.int 0))) } : Feature) = _
    rw [hlr k]
    unfold rowAt
    rw [filter_map_pair df.cols (fun p => (Heap.read h p.2).getD k (Value.int 0)) "geometry"]
    rfl
  rw [hfeatures]
  rfl

/-- Witness for C7 at the concrete two-row frame. -/
theorem C7_witness : C7Prop exHeap exDf 1 :=
  C7_to_json exHeap exDf 1 (by decide) (by decide) (by decide)
